import Mathlib

/-!
Shallow embedding of the ephemeron image lifecycle manager: the webhook
ingestion handler (src/internal/hooks/handler.go), the reaper
(src/unnamed/part_002, package reaper), the immutable-tag glob matcher
(Go path/filepath.Match as invoked by Handler.isImmutableTag), and the
tracking-store contracts of the specification (the Redis client
implementation is not among the sources).  Durations and timestamps are
modelled as integer milliseconds.
-/

namespace Ephemeron

/-- Modelled from the spec: unit table of the TTL parser (the TTL parser
source file is not included in the sources).  Millisecond value of one
duration unit. -/
def unitMillis (c : Char) : Option Int :=
  if c = 's' then some 1000
  else if c = 'm' then some 60000
  else if c = 'h' then some 3600000
  else if c = 'd' then some 86400000
  else if c = 'w' then some 604800000
  else none

/-- Numeric value of a decimal digit character. -/
def digitVal (c : Char) : Nat := c.toNat - '0'.toNat

/-- Modelled from the spec: scanning core of ParseTTL (the TTL parser
source file is not included in the sources).  Walks the tag left to
right keeping the current run of digits; whenever a digit run is
directly followed by a unit character the token's value replaces the
current best match, so the rightmost complete `<integer><unit>` token
wins, as the spec prescribes. -/
def parseTTLCore : List Char → Option Nat → Option Int → Option Int
  | [], _, best => best
  | c :: rest, run, best =>
    if c.isDigit then
      parseTTLCore rest (some ((run.getD 0) * 10 + digitVal c)) best
    else
      match run, unitMillis c with
      | some n, some u => parseTTLCore rest none (some ((n : Int) * u))
      | _, _ => parseTTLCore rest none best

/-- Modelled from the spec: ParseTTL (the TTL parser source file is not
included in the sources).  Extracts the rightmost duration token from a
tag; tags without a token yield `none` (the "no TTL" sentinel). -/
def ParseTTL (tag : String) : Option Int :=
  parseTTLCore tag.data none none

/-- Modelled from the spec: ClampTTL (the TTL parser source file is not
included in the sources).  When the parse produced no TTL the default
applies unchanged; otherwise the parsed value is clamped into
`[0, mx]`. -/
def ClampTTL (d : Option Int) (dflt mx : Int) : Int :=
  match d with
  | none => dflt
  | some v => min (max v 0) mx

/-- Go path/filepath scanChunk, star-stripping prefix loop: consumes the
leading run of stars, reporting whether at least one was present. -/
def dropStars : List Char → Bool × List Char
  | [] => (false, [])
  | c :: t =>
    if c = '*' then (true, (dropStars t).2)
    else (false, c :: t)

/-- Go path/filepath scanChunk, chunk scan: splits the pattern at the
first star that is not inside a `[...]` class, skipping the character
after a backslash, and returns the chunk together with the rest of the
pattern. -/
def chunkSplit : List Char → Bool → List Char × List Char
  | [], _ => ([], [])
  | c :: t, inrange =>
    if c = '\\' then
      match t with
      | [] => ([c], [])
      | d :: t' =>
        let p := chunkSplit t' inrange
        (c :: d :: p.1, p.2)
    else if c = '[' then
      let p := chunkSplit t true
      (c :: p.1, p.2)
    else if c = ']' then
      let p := chunkSplit t false
      (c :: p.1, p.2)
    else if c = '*' then
      if inrange then
        let p := chunkSplit t inrange
        (c :: p.1, p.2)
      else ([], c :: t)
    else
      let p := chunkSplit t inrange
      (c :: p.1, p.2)

/-- Go path/filepath scanChunk: strips leading stars and scans one
chunk. -/
def scanChunk (pattern : List Char) : Bool × List Char × List Char :=
  let s := dropStars pattern
  let p := chunkSplit s.2 false
  (s.1, p.1, p.2)

/-- Go path/filepath getEsc: reads one possibly-escaped character of a
`[...]` class; `Except.error` is ErrBadPattern. -/
def getEsc : List Char → Except Unit (Char × List Char)
  | [] => Except.error ()
  | c :: t =>
    if c = '-' ∨ c = ']' then Except.error ()
    else if c = '\\' then
      match t with
      | [] => Except.error ()
      | d :: t' => if t' = [] then Except.error () else Except.ok (d, t')
    else if t = [] then Except.error ()
    else Except.ok (c, t)

/-- Go path/filepath matchChunk, character-class loop: consumes the
ranges of a `[...]` class up to the closing bracket, reporting whether
`r` fell into any range.  The fuel argument bounds the iteration count;
each step consumes at least one pattern character, so a fuel of the
chunk length plus one is always sufficient. -/
def matchClassGo : Nat → Char → List Char → Nat → Bool →
    Except Unit (List Char × Bool)
  | 0, _, _, _, _ => Except.error ()
  | Nat.succ fuel, r, chunk, nrange, matched =>
    match chunk with
    | ']' :: rest =>
      if 0 < nrange then Except.ok (rest, matched)
      else Except.error ()
    | _ =>
      match getEsc chunk with
      | Except.error () => Except.error ()
      | Except.ok (lo, rest1) =>
        match rest1 with
        | '-' :: rest2 =>
          match getEsc rest2 with
          | Except.error () => Except.error ()
          | Except.ok (hi, rest3) =>
            matchClassGo fuel r rest3 (nrange + 1)
              (matched || (lo ≤ r && r ≤ hi))
        | _ =>
          matchClassGo fuel r rest1 (nrange + 1)
            (matched || (lo ≤ r && r ≤ lo))

/-- Go path/filepath matchChunk: matches a chunk against the head of the
name; `Except.ok none` is a failed match, `Except.ok (some s)` the
remaining name, `Except.error` ErrBadPattern.  After a failure the loop
keeps consuming the chunk so malformed patterns still surface as
errors, exactly as in Go. -/
def matchChunkGo : Nat → List Char → List Char → Bool →
    Except Unit (Option (List Char))
  | 0, _, _, _ => Except.error ()
  | Nat.succ fuel, chunk, s, failed0 =>
    match chunk with
    | [] => if failed0 then Except.ok none else Except.ok (some s)
    | c :: rest =>
      let failed := failed0 || s.isEmpty
      if c = '[' then
        let r := if failed then '\x00' else s.headD '\x00'
        let s' := if failed then s else s.tail
        let neg :=
          match rest with
          | '^' :: cs => (true, cs)
          | cs => (false, cs)
        match matchClassGo (neg.2.length + 1) r neg.2 0 false with
        | Except.error () => Except.error ()
        | Except.ok (cs', matched) =>
          matchChunkGo fuel cs' s' (failed || (matched == neg.1))
      else if c = '?' then
        if failed then matchChunkGo fuel rest s true
        else matchChunkGo fuel rest s.tail (s.headD '\x00' == '/')
      else if c = '\\' then
        match rest with
        | [] => Except.error ()
        | d :: rest' =>
          if failed then matchChunkGo fuel rest' s true
          else matchChunkGo fuel rest' s.tail (!(d == s.headD '\x00'))
      else
        if failed then matchChunkGo fuel rest s true
        else matchChunkGo fuel rest s.tail (!(c == s.headD '\x00'))

/-- Go path/filepath Match, star backtracking loop: tries the chunk at
every later position of the name, stopping at a path separator.
`rest` is the pattern remaining after the chunk; when it is empty the
chunk must exhaust the name. -/
def starLoop (chunk rest : List Char) : List Char → Except Unit (Option (List Char))
  | [] => Except.ok none
  | c :: t =>
    if c = '/' then Except.ok none
    else
      match matchChunkGo (chunk.length + 1) chunk t false with
      | Except.error () => Except.error ()
      | Except.ok none => starLoop chunk rest t
      | Except.ok (some u) =>
        if rest = [] ∧ u ≠ [] then starLoop chunk rest t
        else Except.ok (some u)

/-- Go path/filepath Match, trailing well-formedness pass: before a
non-error `false` result the remainder of the pattern is checked for
bad classes (matchChunk against the empty name). -/
def remainderCheck : Nat → List Char → Except Unit Bool
  | 0, _ => Except.error ()
  | Nat.succ fuel, pattern =>
    match pattern with
    | [] => Except.ok false
    | _ :: _ =>
      let sc := scanChunk pattern
      match matchChunkGo (sc.2.1.length + 1) sc.2.1 [] false with
      | Except.error () => Except.error ()
      | Except.ok _ => remainderCheck fuel sc.2.2

/-- Go path/filepath Match, main pattern loop.  The fuel bounds the
number of chunks; every iteration strictly shrinks the pattern, so a
fuel of the pattern length plus one is always sufficient. -/
def goMatchLoop : Nat → List Char → List Char → Except Unit Bool
  | 0, _, _ => Except.error ()
  | Nat.succ fuel, pattern, name =>
    match pattern with
    | [] => Except.ok name.isEmpty
    | _ :: _ =>
      let sc := scanChunk pattern
      let star := sc.1
      let chunk := sc.2.1
      let rest := sc.2.2
      if star = true ∧ chunk = [] then
        Except.ok (!name.contains '/')
      else
        let fallback : Except Unit Bool :=
          if star then
            match starLoop chunk rest name with
            | Except.error () => Except.error ()
            | Except.ok (some u) => goMatchLoop fuel rest u
            | Except.ok none => remainderCheck (rest.length + 1) rest
          else remainderCheck (rest.length + 1) rest
        match matchChunkGo (chunk.length + 1) chunk name false with
        | Except.error () => Except.error ()
        | Except.ok (some t) =>
          if t = [] ∨ rest ≠ [] then goMatchLoop fuel rest t
          else fallback
        | Except.ok none => fallback

/-- Go path/filepath Match on strings, as used by
Handler.isImmutableTag (src/internal/hooks/handler.go line 228). -/
def filepathMatch (pattern name : String) : Except Unit Bool :=
  goMatchLoop (pattern.data.length + 1) pattern.data name.data

/-- Handler.isImmutableTag (src/internal/hooks/handler.go lines
226-241): a tag is immutable when some configured glob pattern matches
it; patterns whose match errors are skipped. -/
def isImmutableTag (patterns : List String) (tag : String) : Bool :=
  patterns.any fun pattern =>
    match filepathMatch pattern tag with
    | Except.ok b => b
    | Except.error _ => false

/-- Result of overwrite detection. -/
inductive OverwriteResult
  | ok
  | blocked
deriving DecidableEq, Repr

/-- Handler.detectOverwrite (src/internal/hooks/handler.go lines
175-223).  `existingRead` is the outcome of the GetImageDigest store
read: `none` models a read error (best effort, proceed), `some s` the
stored digest.  A non-empty stored digest differing from the new one is
an overwrite; it is blocked exactly when the tag is immutable. -/
def detectOverwrite (existingRead : Option String) (newDigest : String)
    (immutable : Bool) : OverwriteResult :=
  match existingRead with
  | none => OverwriteResult.ok
  | some existing =>
    if existing = "" then OverwriteResult.ok
    else if existing = newDigest then OverwriteResult.ok
    else if immutable then OverwriteResult.blocked
    else OverwriteResult.ok

/-- Tracking record for one `<repository>:<tag>` key (spec section 3;
written by TrackImage, read by the reaper). -/
structure Record where
  expiresAtMs : Int
  sizeBytes : Int
  digest : String
  createdAtMs : Int
deriving DecidableEq, Repr

/-- Modelled from the spec: the tracking store's state (the Redis client
implementation is not among the sources).  An association list from key
to record; by invariant 1 of the spec the index is exactly the set of
keys holding records, so the list's keys double as the index. -/
abbrev StoreState := List (String × Record)

/-- Record lookup in the store.  A `none` result is the store's
"not found" indication, which its readers treat as an error. -/
def slookup : StoreState → String → Option Record
  | [], _ => none
  | (k, r) :: t, key => if k = key then some r else slookup t key

/-- Modelled from the spec: RemoveImage contract of section 4.3 — remove
record and index entry, idempotently. -/
def removeImage : StoreState → String → StoreState
  | [], _ => []
  | (k, r) :: t, key =>
    if k = key then removeImage t key else (k, r) :: removeImage t key

/-- Modelled from the spec: TrackImage contract of section 4.3 — upsert
the four-field record with `created_at_ms = now` and add the key to the
index. -/
def trackImage (st : StoreState) (key : String) (expiresAt sizeBytes : Int)
    (digest : String) (now : Int) : StoreState :=
  (key, ⟨expiresAt, sizeBytes, digest, now⟩) :: removeImage st key

/-- Modelled from the spec: ListImages contract of section 4.3 — the
index snapshot. -/
def listImages (st : StoreState) : List String :=
  st.map fun e => e.1

/-- Sum of the stored `size_bytes` over all index keys. -/
def storeSum : StoreState → Int
  | [] => 0
  | (_, r) :: t => r.sizeBytes + storeSum t

/-- Combined observable state: the tracking store plus the
`tracked_bytes_total` gauge (src/internal/metrics/metrics.go,
TrackedBytesTotal). -/
structure SysState where
  store : StoreState
  trackedBytes : Int
deriving DecidableEq, Repr

/-- Static webhook handler configuration
(src/internal/hooks/handler.go lines 41-49). -/
structure HandlerConfig where
  hookToken : String
  defaultTTL : Int
  maxTTL : Int
  immutableTagPatterns : List String
deriving DecidableEq, Repr

/-- Digest and size returned by GetImageManifestInfo
(registry.ManifestInfo). -/
structure ManifestInfo where
  digest : String
  sizeBytes : Int
deriving DecidableEq, Repr

/-- Outcome oracle for the external effects of one handlePush call:
the manifest fetch result (`none` is a fetch error), whether the
GetImageDigest store read succeeds, and whether the TrackImage store
write succeeds. -/
structure PushEnv where
  manifest : Option ManifestInfo
  digestReadOk : Bool
  trackOk : Bool
deriving DecidableEq, Repr

/-- Handler.handlePush (src/internal/hooks/handler.go lines 118-171).
Computes the key and the clamped TTL; a manifest-fetch failure degrades
to `size = 0, digest = ""`; a non-empty digest runs overwrite detection
and a blocked result fails the push before any store write; otherwise
TrackImage commits the record and the gauge grows by the size.  Returns
the state after the call and whether it succeeded. -/
def handlePush (cfg : HandlerConfig) (now : Int) (env : PushEnv)
    (s : SysState) (repo tag : String) : SysState × Bool :=
  let imageWithTag := repo ++ ":" ++ tag
  let ttl := ClampTTL (ParseTTL tag) cfg.defaultTTL cfg.maxTTL
  let expiresAt := now + ttl
  let info : Int × String :=
    match env.manifest with
    | none => (0, "")
    | some mi => (mi.sizeBytes, mi.digest)
  let sizeBytes := info.1
  let digest := info.2
  let readRes : Option String :=
    if env.digestReadOk then (slookup s.store imageWithTag).map (fun r => r.digest)
    else none
  if digest ≠ "" ∧
      detectOverwrite readRes digest
        (isImmutableTag cfg.immutableTagPatterns tag) = OverwriteResult.blocked then
    (s, false)
  else if env.trackOk then
    (⟨trackImage s.store imageWithTag expiresAt sizeBytes digest now,
      s.trackedBytes + sizeBytes⟩, true)
  else (s, false)

/-- One registry webhook event (handler.go, RegistryEvent flattened with
its target). -/
structure RegistryEvent where
  action : String
  repository : String
  tag : String
deriving DecidableEq, Repr

/-- Per-event body of the ServeHTTP loop (handler.go lines 94-112):
non-push events and events with an empty repository or tag are skipped;
otherwise handlePush runs. -/
def stepEvent (cfg : HandlerConfig) (now : Int) (s : SysState)
    (ev : RegistryEvent × PushEnv) : SysState × Bool :=
  if ev.1.action ≠ "push" then (s, true)
  else if ev.1.repository = "" ∨ ev.1.tag = "" then (s, true)
  else handlePush cfg now ev.2 s ev.1.repository ev.1.tag

/-- The event loop of ServeHTTP: events run sequentially and the first
failing handlePush aborts the remainder of the envelope. -/
def processEvents (cfg : HandlerConfig) (now : Int) :
    List (RegistryEvent × PushEnv) → SysState → SysState × Bool
  | [], s => (s, true)
  | ev :: rest, s =>
    match stepEvent cfg now s ev with
    | (s', true) => processEvents cfg now rest s'
    | (s', false) => (s', false)

/-- HTTP responses the webhook endpoint can produce. -/
inductive HttpResp
  | okResp
  | badRequest
  | unauthorized
  | methodNotAllowed
  | serviceUnavailable
deriving DecidableEq, Repr

/-- Response body written for each response (handler.go: http.Error
appends a newline; the 200 and 401 paths write a literal empty JSON
object). -/
def respBody : HttpResp → String
  | HttpResp.okResp => "\x7b\x7d"
  | HttpResp.badRequest => "bad request\n"
  | HttpResp.unauthorized => "\x7b\x7d"
  | HttpResp.methodNotAllowed => "method not allowed\n"
  | HttpResp.serviceUnavailable => "service unavailable\n"

/-- Handler.ServeHTTP (src/internal/hooks/handler.go lines 72-116).
`authHeader` holds the Authorization header, the empty string when it is
missing; `body` is `none` when the JSON envelope fails to decode,
otherwise the decoded events paired with their effect oracles. -/
def serveHTTP (cfg : HandlerConfig) (now : Int) (method authHeader : String)
    (body : Option (List (RegistryEvent × PushEnv))) (s : SysState) :
    HttpResp × SysState :=
  if method ≠ "POST" then (HttpResp.methodNotAllowed, s)
  else if authHeader ≠ "Token " ++ cfg.hookToken then (HttpResp.unauthorized, s)
  else
    match body with
    | none => (HttpResp.badRequest, s)
    | some events =>
      match processEvents cfg now events s with
      | (s', true) => (HttpResp.okResp, s')
      | (s', false) => (HttpResp.serviceUnavailable, s')

/-- Per-key registry interaction oracle for the reaper's deleteImage:
outcome of the HEAD request (transport error, status, digest headers)
and of the DELETE request (transport error, status). -/
structure RegistryEnv where
  headErr : Bool
  headStatus : Nat
  dockerContentDigest : String
  etag : String
  delErr : Bool
  delStatus : Nat
deriving DecidableEq, Repr

/-- Go strings.SplitN(key, ":", 2) on the character list: the part
before the first colon and the rest, or `none` when no colon occurs. -/
def splitOnColon : List Char → Option (List Char × List Char)
  | [] => none
  | c :: t =>
    if c = ':' then some ([], t)
    else
      match splitOnColon t with
      | none => none
      | some (a, b) => some (c :: a, b)

/-- Key split used by Reaper.deleteImage (src/unnamed/part_002 line
134): `strings.SplitN(imageWithTag, ":", 2)` produces two parts exactly
when the key contains a colon. -/
def splitKey (key : String) : Option (String × String) :=
  match splitOnColon key.data with
  | none => none
  | some (a, b) => some (⟨a⟩, ⟨b⟩)

/-- Go `strings.Trim(s, "\"")`: strips all leading and trailing double
quotes (src/unnamed/part_002 line 166, the ETag fallback). -/
def trimQuotes (s : String) : String :=
  ⟨((s.data.dropWhile fun c => c == '"').reverse.dropWhile fun c => c == '"').reverse⟩

/-- Digest resolution of Reaper.deleteImage (src/unnamed/part_002 lines
163-167): the Docker-Content-Digest header, falling back to the
quote-stripped ETag. -/
def resolveDigest (renv : RegistryEnv) : String :=
  if renv.dockerContentDigest ≠ "" then renv.dockerContentDigest
  else trimQuotes renv.etag

/-- Reaper.deleteImage (src/unnamed/part_002 lines 133-194).  Splits the
key; an invalid key is removed from the store and reported as an error.
A HEAD 404 means the image is already gone: remove the record and
succeed.  A HEAD other than 200, a transport error, or a missing digest
fail without touching the store.  Otherwise DELETE by digest: statuses
200, 202 and 404 succeed and the record is removed; anything else
fails.  Returns the store after the call and whether it succeeded. -/
def deleteImage (renv : RegistryEnv) (st : StoreState) (key : String) :
    StoreState × Bool :=
  match splitKey key with
  | none => (removeImage st key, false)
  | some _ =>
    if renv.headErr then (st, false)
    else if renv.headStatus = 404 then (removeImage st key, true)
    else if renv.headStatus ≠ 200 then (st, false)
    else if resolveDigest renv = "" then (st, false)
    else if renv.delErr then (st, false)
    else if renv.delStatus = 202 ∨ renv.delStatus = 200 ∨ renv.delStatus = 404 then
      (removeImage st key, true)
    else (st, false)

/-- Whether deleteImage succeeds; the flag depends only on the registry
oracle and the key, never on the store contents. -/
def deleteSucceeds (renv : RegistryEnv) (key : String) : Bool :=
  match splitKey key with
  | none => false
  | some _ =>
    if renv.headErr then false
    else if renv.headStatus = 404 then true
    else if renv.headStatus ≠ 200 then false
    else if resolveDigest renv = "" then false
    else if renv.delErr then false
    else if renv.delStatus = 202 ∨ renv.delStatus = 200 ∨ renv.delStatus = 404 then true
    else false

/-- Per-key body of Reaper.ReapOnce (src/unnamed/part_002 lines 84-128).
A failed expiry read (the record is gone) self-heals by removing the
key; an unexpired record is skipped; an expired record goes through
deleteImage, and on success the `tracked_bytes_total` gauge shrinks by
the stored size. -/
def reapStep (renv : String → RegistryEnv) (now : Int) (s : SysState)
    (key : String) : SysState :=
  match slookup s.store key with
  | none => ⟨removeImage s.store key, s.trackedBytes⟩
  | some r =>
    if now < r.expiresAtMs then s
    else
      let d := deleteImage (renv key) s.store key
      if d.2 then ⟨d.1, s.trackedBytes - r.sizeBytes⟩
      else ⟨d.1, s.trackedBytes⟩

/-- Reaper.ReapOnce (src/unnamed/part_002 lines 57-131) for a cycle that
runs to completion: when the lock is acquired, the index snapshot is
enumerated and every key goes through reapStep; otherwise the cycle is
a no-op. -/
def reapOnce (acquired : Bool) (renv : String → RegistryEnv) (now : Int)
    (s : SysState) : SysState :=
  if acquired then (listImages s.store).foldl (reapStep renv now) s else s

/-- Configuration used by the concrete gauge-drift scenario: defaults of
one hour and one day, no immutable patterns. -/
def overwriteCfg : HandlerConfig := ⟨"tok", 3600000, 86400000, []⟩

/-- First push of the gauge-drift scenario: `myapp:1h` at 100 bytes. -/
def overwritePush1 : SysState × Bool :=
  handlePush overwriteCfg 0 ⟨some ⟨"sha256:a", 100⟩, true, true⟩
    ⟨[], 0⟩ "myapp" "1h"

/-- Second push of the gauge-drift scenario: the same tag re-pushed with
a different digest at 200 bytes. -/
def overwritePush2 : SysState × Bool :=
  handlePush overwriteCfg 0 ⟨some ⟨"sha256:b", 200⟩, true, true⟩
    overwritePush1.1 "myapp" "1h"

/-- Removing a key blanks its lookup. -/
theorem slookup_removeImage_self (st : StoreState) (key : String) :
    slookup (removeImage st key) key = none := by
  induction st with
  | nil => rfl
  | cons e t ih =>
    obtain ⟨k, r⟩ := e
    by_cases h : k = key
    · simpa [removeImage, h] using ih
    · simpa [removeImage, h, slookup] using ih

/-- Removing one key leaves every other key's lookup unchanged. -/
theorem slookup_removeImage_ne (st : StoreState) (key k' : String)
    (h : k' ≠ key) :
    slookup (removeImage st key) k' = slookup st k' := by
  induction st with
  | nil => rfl
  | cons e t ih =>
    obtain ⟨k, r⟩ := e
    by_cases hk : k = key
    · subst hk
      have hkk : ¬ k = k' := fun he => h he.symm
      simpa [removeImage, slookup, hkk] using ih
    · by_cases hk' : k = k'
      · subst hk'
        simp [removeImage, hk, slookup]
      · simpa [removeImage, hk, slookup, hk'] using ih

/-- Removing an absent key is a no-op. -/
theorem removeImage_of_slookup_none (st : StoreState) (key : String)
    (h : slookup st key = none) : removeImage st key = st := by
  induction st with
  | nil => rfl
  | cons e t ih =>
    obtain ⟨k, r⟩ := e
    by_cases hk : k = key
    · simp [slookup, hk] at h
    · simp only [slookup, if_neg hk] at h
      simp [removeImage, hk, ih h]

/-- A key outside the index has no record. -/
theorem slookup_eq_none_of_not_mem (st : StoreState) (key : String)
    (h : key ∉ listImages st) : slookup st key = none := by
  induction st with
  | nil => rfl
  | cons e t ih =>
    obtain ⟨k, r⟩ := e
    simp only [listImages, List.map_cons, List.mem_cons, not_or] at h
    have hk : ¬ k = key := fun he => h.1 he.symm
    simp only [slookup, if_neg hk]
    exact ih (by simpa [listImages] using h.2)

/-- With a duplicate-free index, removing a key subtracts exactly its
stored size from the store sum. -/
theorem storeSum_removeImage (st : StoreState) (key : String) (r : Record)
    (hnd : (listImages st).Nodup) (h : slookup st key = some r) :
    storeSum (removeImage st key) = storeSum st - r.sizeBytes := by
  induction st with
  | nil => simp [slookup] at h
  | cons e t ih =>
    obtain ⟨k, r'⟩ := e
    simp only [listImages, List.map_cons, List.nodup_cons] at hnd
    by_cases hk : k = key
    · simp only [slookup, if_pos hk] at h
      obtain rfl : r' = r := by injection h
      have hnot : key ∉ listImages t := hk ▸ hnd.1
      have hrm : removeImage t key = t :=
        removeImage_of_slookup_none t key (slookup_eq_none_of_not_mem t key hnot)
      simp only [removeImage, if_pos hk, hrm, storeSum]
      omega
    · simp only [slookup, if_neg hk] at h
      have hrec := ih (by simpa [listImages] using hnd.2) h
      simp only [removeImage, if_neg hk, storeSum, hrec]
      omega

/-- C8: a POST whose Authorization header is missing (the empty string)
or differs from `Token <secret>` is answered 401 with an empty JSON
object and the state is untouched. -/
theorem serveHTTP_auth_reject (cfg : HandlerConfig) (now : Int)
    (auth : String) (body : Option (List (RegistryEvent × PushEnv)))
    (s : SysState) (h : auth ≠ "Token " ++ cfg.hookToken) :
    serveHTTP cfg now "POST" auth body s = (HttpResp.unauthorized, s) ∧
      respBody HttpResp.unauthorized = "\x7b\x7d" :=
  ⟨by simp [serveHTTP, h], rfl⟩

/-- C8 witness: a request with no Authorization header against the
secret "tok" is rejected without a state change. -/
theorem serveHTTP_auth_reject_witness :
    ("" : String) ≠ "Token " ++ "tok" ∧
      (serveHTTP ⟨"tok", 0, 0, []⟩ 0 "POST" "" none ⟨[], 0⟩ =
          (HttpResp.unauthorized, ⟨[], 0⟩) ∧
        respBody HttpResp.unauthorized = "\x7b\x7d") :=
  ⟨by decide,
    serveHTTP_auth_reject ⟨"tok", 0, 0, []⟩ 0 "" none ⟨[], 0⟩ (by decide)⟩

/-- C6: when the manifest fetch fails, the push is still tracked with
size 0 and empty digest — overwrite detection is skipped, whatever the
stored digests and configured patterns — and the webhook answers 200,
the store write succeeding. -/
theorem handlePush_manifest_failure (cfg : HandlerConfig) (now : Int)
    (s : SysState) (repo tag : String) (dro : Bool)
    (hr : repo ≠ "") (ht : tag ≠ "") :
    handlePush cfg now ⟨none, dro, true⟩ s repo tag =
      (⟨trackImage s.store (repo ++ ":" ++ tag)
          (now + ClampTTL (ParseTTL tag) cfg.defaultTTL cfg.maxTTL) 0 "" now,
        s.trackedBytes⟩, true) ∧
    serveHTTP cfg now "POST" ("Token " ++ cfg.hookToken)
        (some [(⟨"push", repo, tag⟩, ⟨none, dro, true⟩)]) s =
      (HttpResp.okResp,
        ⟨trackImage s.store (repo ++ ":" ++ tag)
            (now + ClampTTL (ParseTTL tag) cfg.defaultTTL cfg.maxTTL) 0 "" now,
          s.trackedBytes⟩) := by
  have h1 : handlePush cfg now ⟨none, dro, true⟩ s repo tag =
      (⟨trackImage s.store (repo ++ ":" ++ tag)
          (now + ClampTTL (ParseTTL tag) cfg.defaultTTL cfg.maxTTL) 0 "" now,
        s.trackedBytes⟩, true) := by
    simp [handlePush]
  refine ⟨h1, ?_⟩
  simp [serveHTTP, processEvents, stepEvent, hr, ht, h1]

/-- C6 witness: a push of `myapp:1h` whose manifest fetch fails is
tracked with size 0 and empty digest and answered 200. -/
theorem handlePush_manifest_failure_witness :
    ("myapp" : String) ≠ "" ∧ ("1h" : String) ≠ "" ∧
      (handlePush ⟨"tok", 3600000, 86400000, ["prod-*"]⟩ 0 ⟨none, true, true⟩
          ⟨[], 0⟩ "myapp" "1h" =
        (⟨trackImage ([] : StoreState) ("myapp" ++ ":" ++ "1h")
            (0 + ClampTTL (ParseTTL "1h") 3600000 86400000) 0 "" 0, 0⟩, true) ∧
      serveHTTP ⟨"tok", 3600000, 86400000, ["prod-*"]⟩ 0 "POST"
          ("Token " ++ "tok")
          (some [(⟨"push", "myapp", "1h"⟩, ⟨none, true, true⟩)]) ⟨[], 0⟩ =
        (HttpResp.okResp,
          ⟨trackImage ([] : StoreState) ("myapp" ++ ":" ++ "1h")
            (0 + ClampTTL (ParseTTL "1h") 3600000 86400000) 0 "" 0, 0⟩)) :=
  ⟨by decide, by decide,
    handlePush_manifest_failure ⟨"tok", 3600000, 86400000, ["prod-*"]⟩ 0
      ⟨[], 0⟩ "myapp" "1h" true (by decide) (by decide)⟩

/-- C3: a push whose new digest differs from a non-empty stored digest
for an immutable tag is blocked: handlePush fails without calling
TrackImage (the state, with the old record, is returned unchanged, for
either value of the TrackImage oracle) and the webhook answers 503. -/
theorem handlePush_immutable_block (cfg : HandlerConfig) (now : Int)
    (s : SysState) (repo tag : String) (mi : ManifestInfo) (r : Record)
    (tOk : Bool) (hd : mi.digest ≠ "")
    (hrec : slookup s.store (repo ++ ":" ++ tag) = some r)
    (hold : r.digest ≠ "") (hdiff : r.digest ≠ mi.digest)
    (himm : isImmutableTag cfg.immutableTagPatterns tag = true)
    (hr : repo ≠ "") (ht : tag ≠ "") :
    handlePush cfg now ⟨some mi, true, tOk⟩ s repo tag = (s, false) ∧
    serveHTTP cfg now "POST" ("Token " ++ cfg.hookToken)
        (some [(⟨"push", repo, tag⟩, ⟨some mi, true, tOk⟩)]) s =
      (HttpResp.serviceUnavailable, s) := by
  have hblocked : detectOverwrite (some r.digest) mi.digest
      (isImmutableTag cfg.immutableTagPatterns tag) = OverwriteResult.blocked := by
    simp [detectOverwrite, hold, hdiff, himm]
  have h1 : handlePush cfg now ⟨some mi, true, tOk⟩ s repo tag = (s, false) := by
    simp [handlePush, hrec, hblocked, hd]
  refine ⟨h1, ?_⟩
  simp [serveHTTP, processEvents, stepEvent, hr, ht, h1]

/-- C3 witness: re-pushing the immutable tag `prod-1h` with a new digest
over the stored record is answered 503 and the record survives. -/
theorem handlePush_immutable_block_witness :
    ("sha256:new" : String) ≠ "" ∧
      slookup [("myapp:prod-1h", ⟨9, 4, "sha256:old", 1⟩)]
        ("myapp" ++ ":" ++ "prod-1h") = some ⟨9, 4, "sha256:old", 1⟩ ∧
      (handlePush ⟨"tok", 3600000, 86400000, ["prod-*"]⟩ 0
          ⟨some ⟨"sha256:new", 4⟩, true, true⟩
          ⟨[("myapp:prod-1h", ⟨9, 4, "sha256:old", 1⟩)], 4⟩ "myapp" "prod-1h" =
        (⟨[("myapp:prod-1h", ⟨9, 4, "sha256:old", 1⟩)], 4⟩, false) ∧
      serveHTTP ⟨"tok", 3600000, 86400000, ["prod-*"]⟩ 0 "POST"
          ("Token " ++ "tok")
          (some [(⟨"push", "myapp", "prod-1h"⟩, ⟨some ⟨"sha256:new", 4⟩, true, true⟩)])
          ⟨[("myapp:prod-1h", ⟨9, 4, "sha256:old", 1⟩)], 4⟩ =
        (HttpResp.serviceUnavailable,
          ⟨[("myapp:prod-1h", ⟨9, 4, "sha256:old", 1⟩)], 4⟩)) :=
  ⟨by decide, by decide,
    handlePush_immutable_block ⟨"tok", 3600000, 86400000, ["prod-*"]⟩ 0
      ⟨[("myapp:prod-1h", ⟨9, 4, "sha256:old", 1⟩)], 4⟩ "myapp" "prod-1h"
      ⟨"sha256:new", 4⟩ ⟨9, 4, "sha256:old", 1⟩ true
      (by decide) (by decide) (by decide) (by decide) (by decide)
      (by decide) (by decide)⟩

/-- Sequential processing composes: an event prefix that fully succeeds
hands its final state to the remaining events. -/
theorem processEvents_append_of_ok (cfg : HandlerConfig) (now : Int) :
    ∀ (pre : List (RegistryEvent × PushEnv)) (s s1 : SysState),
      processEvents cfg now pre s = (s1, true) →
      ∀ l, processEvents cfg now (pre ++ l) s = processEvents cfg now l s1 := by
  intro pre
  induction pre with
  | nil =>
    intro s s1 h l
    simp only [processEvents, Prod.mk.injEq] at h
    rw [List.nil_append, h.1]
  | cons ev t ih =>
    intro s s1 h l
    rcases hse : stepEvent cfg now s ev with ⟨s', b⟩
    cases b with
    | false =>
      simp only [processEvents, hse, Prod.mk.injEq] at h
      exact absurd h.2 (by simp)
    | true =>
      simp only [processEvents, hse] at h
      rw [List.cons_append]
      simp only [processEvents, hse]
      exact ih s' s1 h l

/-- C7: within one envelope the events run sequentially; when every
event succeeds the response is 200 with an empty JSON object body, and
the first failing event yields 503 with exactly the state reached
through the preceding events (already tracked) and that event, the
remaining events never running. -/
theorem serveHTTP_envelope_sequencing (cfg : HandlerConfig) (now : Int) :
    (∀ (evs : List (RegistryEvent × PushEnv)) (s s1 : SysState),
      processEvents cfg now evs s = (s1, true) →
      serveHTTP cfg now "POST" ("Token " ++ cfg.hookToken) (some evs) s =
          (HttpResp.okResp, s1) ∧ respBody HttpResp.okResp = "\x7b\x7d") ∧
    (∀ (pre : List (RegistryEvent × PushEnv)) (ev : RegistryEvent × PushEnv)
        (rest : List (RegistryEvent × PushEnv)) (s s1 s2 : SysState),
      processEvents cfg now pre s = (s1, true) →
      stepEvent cfg now s1 ev = (s2, false) →
      processEvents cfg now (pre ++ ev :: rest) s = (s2, false) ∧
        serveHTTP cfg now "POST" ("Token " ++ cfg.hookToken)
          (some (pre ++ ev :: rest)) s = (HttpResp.serviceUnavailable, s2)) := by
  constructor
  · intro evs s s1 h
    exact ⟨by simp [serveHTTP, h], rfl⟩
  · intro pre ev rest s s1 s2 h1 h2
    have hp : processEvents cfg now (pre ++ ev :: rest) s = (s2, false) := by
      rw [processEvents_append_of_ok cfg now pre s s1 h1 (ev :: rest)]
      simp only [processEvents, h2]
    exact ⟨hp, by simp [serveHTTP, hp]⟩

/-- C7 witness: pushing `a:1h` succeeds, a second push of `b:1h` with a
failing store write aborts the envelope with 503 and the third event is
never processed. -/
theorem serveHTTP_envelope_sequencing_witness :
    processEvents ⟨"tok", 3600000, 86400000, []⟩ 0
        [(⟨"push", "a", "1h"⟩, ⟨some ⟨"sha256:a", 5⟩, true, true⟩)] ⟨[], 0⟩ =
      (⟨[("a:1h", ⟨3600000, 5, "sha256:a", 0⟩)], 5⟩, true) ∧
    stepEvent ⟨"tok", 3600000, 86400000, []⟩ 0
        ⟨[("a:1h", ⟨3600000, 5, "sha256:a", 0⟩)], 5⟩
        (⟨"push", "b", "1h"⟩, ⟨some ⟨"sha256:b", 7⟩, true, false⟩) =
      (⟨[("a:1h", ⟨3600000, 5, "sha256:a", 0⟩)], 5⟩, false) ∧
    (processEvents ⟨"tok", 3600000, 86400000, []⟩ 0
        ([(⟨"push", "a", "1h"⟩, ⟨some ⟨"sha256:a", 5⟩, true, true⟩)] ++
          (⟨"push", "b", "1h"⟩, ⟨some ⟨"sha256:b", 7⟩, true, false⟩) ::
            [(⟨"push", "c", "1h"⟩, ⟨some ⟨"sha256:c", 9⟩, true, true⟩)]) ⟨[], 0⟩ =
      (⟨[("a:1h", ⟨3600000, 5, "sha256:a", 0⟩)], 5⟩, false) ∧
      serveHTTP ⟨"tok", 3600000, 86400000, []⟩ 0 "POST" ("Token " ++ "tok")
        (some ([(⟨"push", "a", "1h"⟩, ⟨some ⟨"sha256:a", 5⟩, true, true⟩)] ++
          (⟨"push", "b", "1h"⟩, ⟨some ⟨"sha256:b", 7⟩, true, false⟩) ::
            [(⟨"push", "c", "1h"⟩, ⟨some ⟨"sha256:c", 9⟩, true, true⟩)])) ⟨[], 0⟩ =
      (HttpResp.serviceUnavailable, ⟨[("a:1h", ⟨3600000, 5, "sha256:a", 0⟩)], 5⟩)) :=
  ⟨by decide, by decide,
    (serveHTTP_envelope_sequencing ⟨"tok", 3600000, 86400000, []⟩ 0).2
      [(⟨"push", "a", "1h"⟩, ⟨some ⟨"sha256:a", 5⟩, true, true⟩)]
      (⟨"push", "b", "1h"⟩, ⟨some ⟨"sha256:b", 7⟩, true, false⟩)
      [(⟨"push", "c", "1h"⟩, ⟨some ⟨"sha256:c", 9⟩, true, true⟩)]
      ⟨[], 0⟩ ⟨[("a:1h", ⟨3600000, 5, "sha256:a", 0⟩)], 5⟩
      ⟨[("a:1h", ⟨3600000, 5, "sha256:a", 0⟩)], 5⟩
      (by decide) (by decide)⟩

/-- The success flag of deleteImage does not depend on the store
contents. -/
theorem deleteImage_snd (renv : RegistryEnv) (st : StoreState) (key : String) :
    (deleteImage renv st key).2 = deleteSucceeds renv key := by
  unfold deleteImage deleteSucceeds
  cases splitKey key with
  | none => rfl
  | some p => split_ifs <;> rfl

/-- A successful deleteImage always removed the record. -/
theorem deleteImage_fst_of_success (renv : RegistryEnv) (st : StoreState)
    (key : String) (h : (deleteImage renv st key).2 = true) :
    (deleteImage renv st key).1 = removeImage st key := by
  unfold deleteImage at h ⊢
  cases hsp : splitKey key with
  | none => simp only [hsp] at h; exact absurd h (by simp)
  | some p =>
    simp only [hsp] at h ⊢
    split_ifs at h ⊢ <;> simp_all

/-- A failed deleteImage on a well-formed key leaves the store
untouched. -/
theorem deleteImage_fst_of_failure (renv : RegistryEnv) (st : StoreState)
    (key : String) (hfmt : (splitKey key).isSome = true)
    (h : (deleteImage renv st key).2 = false) :
    (deleteImage renv st key).1 = st := by
  unfold deleteImage at h ⊢
  cases hsp : splitKey key with
  | none => simp [hsp] at hfmt
  | some p =>
    simp only [hsp] at h ⊢
    split_ifs at h ⊢ <;> simp_all

/-- deleteImage either keeps the store or removes exactly the processed
key. -/
theorem deleteImage_fst_cases (renv : RegistryEnv) (st : StoreState)
    (key : String) :
    (deleteImage renv st key).1 = st ∨
      (deleteImage renv st key).1 = removeImage st key := by
  unfold deleteImage
  cases splitKey key with
  | none => right; rfl
  | some p => split_ifs <;> simp

/-- C5: deleteImage on a well-formed key with a completed HEAD request:
a HEAD 404 succeeds and removes the record; with a HEAD 200 and a
resolved digest the DELETE succeeds exactly for statuses 200, 202 and
404 — then the record is removed — while any other DELETE status fails
and keeps the record for a later cycle. -/
theorem deleteImage_registry_protocol (renv : RegistryEnv)
    (st : StoreState) (key : String)
    (hfmt : (splitKey key).isSome = true) (hherr : renv.headErr = false) :
    (renv.headStatus = 404 →
      deleteImage renv st key = (removeImage st key, true)) ∧
    (renv.headStatus = 200 → resolveDigest renv ≠ "" → renv.delErr = false →
      (((deleteImage renv st key).2 = true) ↔
        (renv.delStatus = 200 ∨ renv.delStatus = 202 ∨ renv.delStatus = 404)) ∧
      ((renv.delStatus = 200 ∨ renv.delStatus = 202 ∨ renv.delStatus = 404) →
        slookup (deleteImage renv st key).1 key = none) ∧
      (¬ (renv.delStatus = 200 ∨ renv.delStatus = 202 ∨ renv.delStatus = 404) →
        (deleteImage renv st key).1 = st)) := by
  rcases Option.isSome_iff_exists.mp hfmt with ⟨p, hp⟩
  constructor
  · intro h404
    unfold deleteImage
    rw [hp]
    simp [hherr, h404]
  · intro h200 hdig hderr
    have hsnd : (deleteImage renv st key).2 =
        (if renv.delStatus = 202 ∨ renv.delStatus = 200 ∨ renv.delStatus = 404
          then true else false) := by
      unfold deleteImage
      rw [hp]
      simp only [hherr, Bool.false_eq_true, if_false, h200, hdig, hderr]
      split_ifs with hds <;> simp_all
    constructor
    · rw [hsnd]
      split_ifs with hds
      · simp only [true_iff]
        tauto
      · simp only [Bool.false_eq_true, false_iff]
        tauto
    · constructor
      · intro hok
        have h2 : (deleteImage renv st key).2 = true := by
          rw [hsnd]
          have hds : renv.delStatus = 202 ∨ renv.delStatus = 200 ∨
              renv.delStatus = 404 := by tauto
          simp [hds]
        rw [deleteImage_fst_of_success renv st key h2]
        exact slookup_removeImage_self st key
      · intro hbad
        have h2 : (deleteImage renv st key).2 = false := by
          rw [hsnd]
          have hds : ¬ (renv.delStatus = 202 ∨ renv.delStatus = 200 ∨
              renv.delStatus = 404) := by tauto
          simp [hds]
        exact deleteImage_fst_of_failure renv st key hfmt h2

/-- C5 witness: HEAD 200 with digest and DELETE 202 removes the seeded
record `x:y`. -/
theorem deleteImage_registry_protocol_witness :
    (splitKey "x:y").isSome = true ∧
      (⟨false, 200, "sha256:d", "", false, 202⟩ : RegistryEnv).headErr = false ∧
      (((⟨false, 200, "sha256:d", "", false, 202⟩ : RegistryEnv).headStatus = 404 →
        deleteImage ⟨false, 200, "sha256:d", "", false, 202⟩
            [("x:y", ⟨0, 2048, "sha256:d", 0⟩)] "x:y" =
          (removeImage [("x:y", ⟨0, 2048, "sha256:d", 0⟩)] "x:y", true)) ∧
      ((⟨false, 200, "sha256:d", "", false, 202⟩ : RegistryEnv).headStatus = 200 →
        resolveDigest ⟨false, 200, "sha256:d", "", false, 202⟩ ≠ "" →
        (⟨false, 200, "sha256:d", "", false, 202⟩ : RegistryEnv).delErr = false →
        (((deleteImage ⟨false, 200, "sha256:d", "", false, 202⟩
              [("x:y", ⟨0, 2048, "sha256:d", 0⟩)] "x:y").2 = true) ↔
          ((202 : Nat) = 200 ∨ (202 : Nat) = 202 ∨ (202 : Nat) = 404)) ∧
        (((202 : Nat) = 200 ∨ (202 : Nat) = 202 ∨ (202 : Nat) = 404) →
          slookup (deleteImage ⟨false, 200, "sha256:d", "", false, 202⟩
              [("x:y", ⟨0, 2048, "sha256:d", 0⟩)] "x:y").1 "x:y" = none) ∧
        (¬ ((202 : Nat) = 200 ∨ (202 : Nat) = 202 ∨ (202 : Nat) = 404) →
          (deleteImage ⟨false, 200, "sha256:d", "", false, 202⟩
              [("x:y", ⟨0, 2048, "sha256:d", 0⟩)] "x:y").1 =
            [("x:y", ⟨0, 2048, "sha256:d", 0⟩)]))) :=
  ⟨by decide, by decide,
    deleteImage_registry_protocol ⟨false, 200, "sha256:d", "", false, 202⟩
      [("x:y", ⟨0, 2048, "sha256:d", 0⟩)] "x:y" (by decide) (by decide)⟩

/-- C10: a HEAD 200 whose response carries neither a
Docker-Content-Digest nor a usable ETag makes deleteImage fail with the
store untouched, and the per-key reap body then keeps the whole state
unchanged, so the key is retried in a later cycle. -/
theorem deleteImage_missing_digest (renv : RegistryEnv) (key : String)
    (now : Int) (hfmt : (splitKey key).isSome = true)
    (hherr : renv.headErr = false) (hstat : renv.headStatus = 200)
    (hdcd : renv.dockerContentDigest = "")
    (hetag : trimQuotes renv.etag = "") :
    (∀ st : StoreState, deleteImage renv st key = (st, false)) ∧
    (∀ (s : SysState) (r : Record), slookup s.store key = some r →
      r.expiresAtMs ≤ now → reapStep (fun _ => renv) now s key = s) := by
  rcases Option.isSome_iff_exists.mp hfmt with ⟨p, hp⟩
  have hres : resolveDigest renv = "" := by
    unfold resolveDigest
    simp [hdcd, hetag]
  have hne404 : ¬ renv.headStatus = 404 := by rw [hstat]; decide
  have hdel : ∀ st : StoreState, deleteImage renv st key = (st, false) := by
    intro st
    unfold deleteImage
    rw [hp]
    simp [hherr, hne404, hstat, hres]
  refine ⟨hdel, ?_⟩
  intro s r hrec hexp
  have hnl : ¬ now < r.expiresAtMs := not_lt.mpr hexp
  simp only [reapStep, hrec, hnl, if_false, hdel, Bool.false_eq_true]

/-- C10 witness: HEAD 200 on `x:y` with empty digest headers leaves the
seeded state untouched. -/
theorem deleteImage_missing_digest_witness :
    (splitKey "x:y").isSome = true ∧
      ((∀ st : StoreState,
        deleteImage ⟨false, 200, "", "\"\"", false, 202⟩ st "x:y" = (st, false)) ∧
      (∀ (s : SysState) (r : Record), slookup s.store "x:y" = some r →
        r.expiresAtMs ≤ 10 →
        reapStep (fun _ => ⟨false, 200, "", "\"\"", false, 202⟩) 10 s "x:y" = s)) :=
  ⟨by decide,
    deleteImage_missing_digest ⟨false, 200, "", "\"\"", false, 202⟩ "x:y" 10
      (by decide) (by decide) (by decide) (by decide) (by decide)⟩

/-- reapStep only ever touches the key it processes. -/
theorem slookup_reapStep_ne (renv : String → RegistryEnv) (now : Int)
    (s : SysState) (a key : String) (h : key ≠ a) :
    slookup (reapStep renv now s a).store key = slookup s.store key := by
  unfold reapStep
  cases hl : slookup s.store a with
  | none => simpa using slookup_removeImage_ne s.store a key h
  | some r =>
    by_cases he : now < r.expiresAtMs
    · simp [he]
    · simp only [he, if_false]
      rcases deleteImage_fst_cases (renv a) s.store a with hc | hc <;>
        split_ifs <;> simp [hc, slookup_removeImage_ne s.store a key h]

/-- Folding reapStep over keys that do not include `key` leaves `key`'s
record alone. -/
theorem slookup_reapFold_not_mem (renv : String → RegistryEnv) (now : Int) :
    ∀ (l : List String) (s : SysState) (key : String), key ∉ l →
      slookup (l.foldl (reapStep renv now) s).store key = slookup s.store key := by
  intro l
  induction l with
  | nil => intro s key _; rfl
  | cons a t ih =>
    intro s key h
    simp only [List.mem_cons, not_or] at h
    rw [List.foldl_cons, ih _ key h.2, slookup_reapStep_ne renv now s a key h.1]

/-- Core of the reap-cycle contract: along a duplicate-free key list
containing `key`, an expired record ends removed unless its registry
delete failed, and an unexpired record is untouched. -/
theorem reapFold_key_contract (renv : String → RegistryEnv) (now : Int)
    (key : String) (r : Record) :
    ∀ (l : List String) (s : SysState), l.Nodup → key ∈ l →
      slookup s.store key = some r →
      ((r.expiresAtMs ≤ now →
        slookup (l.foldl (reapStep renv now) s).store key = none ∨
          deleteSucceeds (renv key) key = false) ∧
       (now < r.expiresAtMs →
        slookup (l.foldl (reapStep renv now) s).store key = some r)) := by
  intro l
  induction l with
  | nil => intro s _ hm; exact absurd hm (List.not_mem_nil key)
  | cons a t ih =>
    intro s hnd hm hrec
    rcases List.nodup_cons.mp hnd with ⟨hna, hndt⟩
    rw [List.foldl_cons]
    by_cases hak : key = a
    · subst hak
      have hkt : key ∉ t := hna
      constructor
      · intro hexp
        cases hds : deleteSucceeds (renv key) key with
        | false => exact Or.inr rfl
        | true =>
          left
          have h2 : (deleteImage (renv key) s.store key).2 = true := by
            rw [deleteImage_snd]; exact hds
          have hnl : ¬ now < r.expiresAtMs := not_lt.mpr hexp
          have hstep : (reapStep renv now s key).store =
              (deleteImage (renv key) s.store key).1 := by
            simp only [reapStep, hrec, hnl, if_false]
            split_ifs
            all_goals rfl
          rw [slookup_reapFold_not_mem renv now t _ key hkt, hstep,
            deleteImage_fst_of_success _ _ _ h2, slookup_removeImage_self]
      · intro hlt
        have hstep : reapStep renv now s key = s := by
          simp only [reapStep, hrec, hlt, if_true]
        rw [hstep, slookup_reapFold_not_mem renv now t s key hkt, hrec]
    · have hm' : key ∈ t := by
        rcases List.mem_cons.mp hm with h | h
        · exact absurd h hak
        · exact h
      have hrec' : slookup (reapStep renv now s a).store key = some r := by
        rw [slookup_reapStep_ne renv now s a key hak, hrec]
      exact ih (reapStep renv now s a) hndt hm' hrec'

/-- C1: in a completed reap cycle that acquired the lock, every listed
key whose stored expiry is at or before the cycle-start time ends up
removed from the index or had its registry delete attempt fail, while a
key whose expiry lies after that time keeps its record untouched. -/
theorem reapOnce_expiry_contract (renv : String → RegistryEnv) (now : Int)
    (s : SysState) (key : String) (r : Record)
    (hnd : (listImages s.store).Nodup)
    (hmem : key ∈ listImages s.store)
    (hrec : slookup s.store key = some r) :
    (r.expiresAtMs ≤ now →
      slookup (reapOnce true renv now s).store key = none ∨
        (deleteImage (renv key) s.store key).2 = false) ∧
    (now < r.expiresAtMs →
      slookup (reapOnce true renv now s).store key = some r) := by
  have h := reapFold_key_contract renv now key r (listImages s.store) s
    hnd hmem hrec
  have hro : reapOnce true renv now s =
      (listImages s.store).foldl (reapStep renv now) s := by
    simp [reapOnce]
  rw [hro, deleteImage_snd]
  exact h

/-- C1 witness: the expired key `a:b` is reaped through a HEAD 404 and
disappears from the index. -/
theorem reapOnce_expiry_contract_witness :
    (listImages [("a:b", ⟨0, 5, "", 0⟩)]).Nodup ∧
      "a:b" ∈ listImages [("a:b", ⟨0, 5, "", 0⟩)] ∧
      slookup [("a:b", ⟨0, 5, "", 0⟩)] "a:b" = some ⟨0, 5, "", 0⟩ ∧
      (((⟨0, 5, "", 0⟩ : Record).expiresAtMs ≤ 10 →
        slookup (reapOnce true (fun _ => ⟨false, 404, "", "", false, 0⟩) 10
            ⟨[("a:b", ⟨0, 5, "", 0⟩)], 5⟩).store "a:b" = none ∨
          (deleteImage ((fun _ => (⟨false, 404, "", "", false, 0⟩ : RegistryEnv)) "a:b")
            [("a:b", ⟨0, 5, "", 0⟩)] "a:b").2 = false) ∧
      ((10 : Int) < (⟨0, 5, "", 0⟩ : Record).expiresAtMs →
        slookup (reapOnce true (fun _ => ⟨false, 404, "", "", false, 0⟩) 10
            ⟨[("a:b", ⟨0, 5, "", 0⟩)], 5⟩).store "a:b" = some ⟨0, 5, "", 0⟩)) :=
  ⟨by decide, by decide, by decide,
    reapOnce_expiry_contract (fun _ => ⟨false, 404, "", "", false, 0⟩) 10
      ⟨[("a:b", ⟨0, 5, "", 0⟩)], 5⟩ "a:b" ⟨0, 5, "", 0⟩
      (by decide) (by decide) (by decide)⟩

/-- C9 counterexample: the gauge equality is not an invariant of the
code.  From a consistent initial state, two successful pushes of the
same tag with different digests and sizes leave the gauge at the sum of
both sizes while the store holds only the new record: TrackImage
upserts, but the gauge grows by the full new size without shedding the
old one. -/
theorem trackedBytes_gauge_drift :
    storeSum (⟨[], 0⟩ : SysState).store = (⟨[], 0⟩ : SysState).trackedBytes ∧
      overwritePush1.2 = true ∧ overwritePush2.2 = true ∧
      overwritePush2.1.trackedBytes = 300 ∧
      storeSum overwritePush2.1.store = 200 ∧
      overwritePush2.1.trackedBytes ≠ storeSum overwritePush2.1.store := by
  refine ⟨rfl, rfl, rfl, rfl, rfl, ?_⟩
  decide

/-- C9 (amended): the gauge equality is preserved by the two operations
the claim names, under the proviso the counterexample forces: a
successful TrackImage of a key that is not already tracked adds the new
size to both sides, and a reap step on a well-formed key in a
duplicate-free index subtracts the stored size from both sides on a
successful delete (and changes nothing otherwise).  An overwrite push
of an already-tracked key is exactly the case the equality does not
survive. -/
theorem trackedBytes_preservation (cfg : HandlerConfig) (now : Int) :
    (∀ (env : PushEnv) (s : SysState) (repo tag : String),
      slookup s.store (repo ++ ":" ++ tag) = none →
      s.trackedBytes = storeSum s.store →
      (handlePush cfg now env s repo tag).1.trackedBytes =
        storeSum (handlePush cfg now env s repo tag).1.store) ∧
    (∀ (renv : String → RegistryEnv) (s : SysState) (key : String),
      (splitKey key).isSome = true →
      (listImages s.store).Nodup →
      s.trackedBytes = storeSum s.store →
      (reapStep renv now s key).trackedBytes =
        storeSum (reapStep renv now s key).store) := by
  constructor
  · intro env s repo tag hnone hinv
    simp only [handlePush]
    split_ifs <;> dsimp only <;>
      first
        | exact hinv
        | (simp only [trackImage, storeSum,
             removeImage_of_slookup_none s.store (repo ++ ":" ++ tag) hnone]
           rw [hinv]
           ring)
  · intro renv s key hfmt hnd hinv
    cases hl : slookup s.store key with
    | none =>
      have hrm : removeImage s.store key = s.store :=
        removeImage_of_slookup_none s.store key hl
      simp only [reapStep, hl, hrm]
      exact hinv
    | some r =>
      by_cases he : now < r.expiresAtMs
      · simp only [reapStep, hl, he, if_true]
        exact hinv
      · have hnl : ¬ now < r.expiresAtMs := he
        cases hds : (deleteImage (renv key) s.store key).2 with
        | true =>
          have h1 := deleteImage_fst_of_success (renv key) s.store key hds
          simp only [reapStep, hl, hnl, if_false, hds, if_true, h1,
            storeSum_removeImage s.store key r hnd hl]
          omega
        | false =>
          have h1 := deleteImage_fst_of_failure (renv key) s.store key hfmt hds
          simp only [reapStep, hl, hnl, if_false, hds, Bool.false_eq_true, h1]
          exact hinv

/-- C9 witness: the amended preservation applied on both sides — a
fresh push of `a:b` keeps the gauge equal to the store sum, and a reap
step deleting the expired `a:b` through a HEAD 404 keeps it equal as
well. -/
theorem trackedBytes_preservation_witness :
    slookup ([] : StoreState) ("a" ++ ":" ++ "b") = none ∧
      (⟨[], 0⟩ : SysState).trackedBytes = storeSum (⟨[], 0⟩ : SysState).store ∧
      (handlePush ⟨"tok", 3600000, 86400000, []⟩ 0
          ⟨some ⟨"sha256:a", 7⟩, true, true⟩ ⟨[], 0⟩ "a" "b").1.trackedBytes =
        storeSum (handlePush ⟨"tok", 3600000, 86400000, []⟩ 0
          ⟨some ⟨"sha256:a", 7⟩, true, true⟩ ⟨[], 0⟩ "a" "b").1.store ∧
      ((splitKey "a:b").isSome = true ∧
        (listImages [("a:b", ⟨0, 7, "sha256:a", 0⟩)]).Nodup ∧
        (⟨[("a:b", ⟨0, 7, "sha256:a", 0⟩)], 7⟩ : SysState).trackedBytes =
          storeSum (⟨[("a:b", ⟨0, 7, "sha256:a", 0⟩)], 7⟩ : SysState).store ∧
        (reapStep (fun _ => ⟨false, 404, "", "", false, 0⟩) 10
            ⟨[("a:b", ⟨0, 7, "sha256:a", 0⟩)], 7⟩ "a:b").trackedBytes =
          storeSum (reapStep (fun _ => ⟨false, 404, "", "", false, 0⟩) 10
            ⟨[("a:b", ⟨0, 7, "sha256:a", 0⟩)], 7⟩ "a:b").store) :=
  ⟨by decide, by decide,
    (trackedBytes_preservation ⟨"tok", 3600000, 86400000, []⟩ 0).1
      ⟨some ⟨"sha256:a", 7⟩, true, true⟩ ⟨[], 0⟩ "a" "b"
      (by decide) (by decide),
    by decide, by decide, by decide,
    (trackedBytes_preservation ⟨"tok", 3600000, 86400000, []⟩ 10).2
      (fun _ => ⟨false, 404, "", "", false, 0⟩)
      ⟨[("a:b", ⟨0, 7, "sha256:a", 0⟩)], 7⟩ "a:b"
      (by decide) (by decide) (by decide)⟩

/-- C2 counterexample: the claim's "equals `d` exactly when `t` contains
no duration suffix" fails as a biconditional.  The tag "1h" carries a
duration suffix, yet with default `d` = 1 hour the clamped result still
equals `d`. -/
theorem clampTTL_default_coincidence :
    (ParseTTL "1h").isSome = true ∧
      ClampTTL (ParseTTL "1h") 3600000 86400000 = 3600000 := by
  constructor
  · rfl
  · rfl

/-- C2 (amended): for configured durations `0 ≤ d ≤ m`, the clamped TTL
of any tag lies in `[0, m]`, and it equals `d` whenever the tag has no
duration suffix. -/
theorem clampTTL_parseTTL_range (t : String) (d m : Int)
    (h0 : 0 ≤ d) (h1 : d ≤ m) :
    0 ≤ ClampTTL (ParseTTL t) d m ∧ ClampTTL (ParseTTL t) d m ≤ m ∧
      (ParseTTL t = none → ClampTTL (ParseTTL t) d m = d) := by
  cases hp : ParseTTL t with
  | none => simp [ClampTTL, hp, h0, h1.trans_eq rfl, h1]
  | some v =>
    refine ⟨?_, ?_, ?_⟩
    · exact le_min (le_max_right v 0) (h0.trans h1)
    · exact min_le_right _ _
    · intro hc
      simp [hp] at hc

/-- C2 witness: the amended theorem applied to the suffix-free tag
"latest" with default one hour and maximum one day. -/
theorem clampTTL_parseTTL_range_witness :
    (0 : Int) ≤ 3600000 ∧ (3600000 : Int) ≤ 86400000 ∧
      (0 ≤ ClampTTL (ParseTTL "latest") 3600000 86400000 ∧
        ClampTTL (ParseTTL "latest") 3600000 86400000 ≤ 86400000 ∧
        (ParseTTL "latest" = none →
          ClampTTL (ParseTTL "latest") 3600000 86400000 = 3600000)) :=
  ⟨by decide, by decide,
    clampTTL_parseTTL_range "latest" 3600000 86400000 (by decide) (by decide)⟩

/-- C4: detectOverwrite returns blocked exactly when the store read
succeeded with a non-empty digest that differs from the new digest and
the tag matches an immutable pattern; in every other situation
(read failure, empty stored digest, identical digest, or no matching
pattern) it returns ok. -/
theorem detectOverwrite_characterization (rd : Option String)
    (nd : String) (pats : List String) (tag : String) :
    (detectOverwrite rd nd (isImmutableTag pats tag) = OverwriteResult.blocked ↔
      ∃ ex, rd = some ex ∧ ex ≠ "" ∧ ex ≠ nd ∧ isImmutableTag pats tag = true) ∧
    (detectOverwrite rd nd (isImmutableTag pats tag) = OverwriteResult.ok ↔
      ¬ ∃ ex, rd = some ex ∧ ex ≠ "" ∧ ex ≠ nd ∧ isImmutableTag pats tag = true) := by
  cases rd with
  | none => simp [detectOverwrite]
  | some ex =>
    by_cases h1 : ex = "" <;> by_cases h2 : ex = nd <;>
      by_cases h3 : isImmutableTag pats tag = true <;>
        simp [detectOverwrite, h1, h2, h3]

/-- C4 witness: a non-empty stored digest differing from the pushed one
under the matching pattern "prod-*" is blocked. -/
theorem detectOverwrite_characterization_witness :
    detectOverwrite (some "sha256:old") "sha256:new"
      (isImmutableTag ["prod-*"] "prod-1h") = OverwriteResult.blocked :=
  (detectOverwrite_characterization (some "sha256:old") "sha256:new"
      ["prod-*"] "prod-1h").1.mpr
    ⟨"sha256:old", rfl, by decide, by decide, by decide⟩

end Ephemeron
